import Mathlib

/-!
# BannerWeb enrollment engine: a shallow embedding

Lean model of the enrollment core of the BannerWeb course-registration
system (`student.py`, `course.py`, `enrollment_system.py`), together with
proofs about its invariants, error handling and schedule-conflict logic.

Python `set[str]` values are modelled as duplicate-free `List String`
(insertion = `setAdd`, `set.discard` = `setDiscard`); Python `dict`
values are modelled as association lists with first-match lookup and
in-place update (`lookupA`, `alistSet`).  Python `int` is modelled as
`Int`.  Fallible parsing (`int(...)`, tuple unpacking of `str.split`)
is modelled with `Option`.  The CSV persistence layer (`save_data`,
`load_data`) performs file I/O only and never changes the in-memory
state, so it is omitted: every `self.save_data()` call in the source is
the identity on the state modelled here.
-/

namespace BannerWeb

/-- Python `set.add` on a set modelled as a duplicate-free list:
inserting a member is a no-op, otherwise the element is added. -/
def setAdd (l : List String) (x : String) : List String :=
  if x ∈ l then l else x :: l

/-- Python `set.discard`: removes the element if present, no-op otherwise. -/
def setDiscard (l : List String) (x : String) : List String :=
  l.filter (fun y => y ≠ x)

/-- First-match lookup in an association list (Python `dict[k]` /
`k in dict` on a dict whose keys are unique). -/
def lookupA {α : Type} (m : List (String × α)) (k : String) : Option α :=
  match m with
  | [] => none
  | (k0, v) :: rest => if k0 = k then some v else lookupA rest k

/-- Python `dict[k] = v`: replace the value in place if the key is
present, otherwise append the new binding. -/
def alistSet {α : Type} (m : List (String × α)) (k : String) (v : α) :
    List (String × α) :=
  match m with
  | [] => [(k, v)]
  | (k0, v0) :: rest =>
      if k0 = k then (k, v) :: rest else (k0, v0) :: alistSet rest k v

/-- `student.py`, class `Student`: id, display name and the set of
registered course ids. -/
structure Student where
  student_id : String
  name : String
  registered_courses : List String
deriving DecidableEq

/-- `Student.add_course`: unconditional set insertion. -/
def Student.add_course (s : Student) (course_id : String) : Student :=
  { s with registered_courses := setAdd s.registered_courses course_id }

/-- `Student.remove_course`: `set.discard`. -/
def Student.remove_course (s : Student) (course_id : String) : Student :=
  { s with registered_courses := setDiscard s.registered_courses course_id }

/-- `course.py`, class `Course`. -/
structure Course where
  course_id : String
  name : String
  instructor : String
  enrolled_students : List String
  max_students : Int
  days : String
  time : String
  location : String
deriving DecidableEq

/-- `Course.is_full`: `len(self.enrolled_students) >= self.max_students`. -/
def Course.is_full (c : Course) : Bool :=
  (c.enrolled_students.length : Int) ≥ c.max_students

/-- `Course.add_student`: returns `false` without mutating when the
course is at (or beyond) capacity, otherwise inserts and returns `true`.
The source mutates `self`; here the updated course is returned next to
the boolean result. -/
def Course.add_student (c : Course) (student_id : String) : Bool × Course :=
  if (c.enrolled_students.length : Int) ≥ c.max_students then (false, c)
  else (true, { c with enrolled_students := setAdd c.enrolled_students student_id })

/-- `Course.remove_student`: `set.discard`. -/
def Course.remove_student (c : Course) (student_id : String) : Course :=
  { c with enrolled_students := setDiscard c.enrolled_students student_id }

/-!
## Time parsing (`Course._parse_time_range`, `Course._time_to_minutes`)

Python's `str.split(sep)` for a one-character separator, `str.strip()`
and `int(...)` are modelled on `List Char`.  `int(...)` accepts optional
surrounding whitespace, an optional sign and a non-empty digit string,
and raises `ValueError` otherwise (modelled as `none`).
-/

/-- Python `s.split(sep)` for a single-character separator: always
returns at least one (possibly empty) piece. -/
def pySplit (sep : Char) : List Char → List (List Char)
  | [] => [[]]
  | c :: rest =>
      let r := pySplit sep rest
      if c = sep then [] :: r
      else
        match r with
        | [] => [[c]]
        | g :: gs => (c :: g) :: gs

/-- Python `str.strip()`: drop whitespace from both ends. -/
def pyStrip (l : List Char) : List Char :=
  ((l.dropWhile Char.isWhitespace).reverse.dropWhile Char.isWhitespace).reverse

/-- Digit-string accumulator for `pyInt`. -/
def digitsToNat (l : List Char) : Nat :=
  l.foldl (fun acc c => acc * 10 + (c.toNat - 48)) 0

/-- Python `int(s)` on a string: strips whitespace, then an optional
sign followed by a non-empty run of digits; anything else raises
`ValueError` (`none`). -/
def pyInt (s : List Char) : Option Int :=
  let t := pyStrip s
  let core : Option (Int × List Char) :=
    match t with
    | '-' :: rest => some (-1, rest)
    | '+' :: rest => some (1, rest)
    | l => some (1, l)
  match core with
  | some (sign, digits) =>
      if digits ≠ [] ∧ digits.all Char.isDigit then
        some (sign * (digitsToNat digits : Int))
      else none
  | none => none

/-- `Course._time_to_minutes`: `hour, minute = map(int, time_str.split(':'))`
then `hour * 60 + minute`.  The unpacking fails unless the split yields
exactly two pieces, and each piece must convert with `int`. -/
def Course.time_to_minutes (time_str : List Char) : Option Int :=
  match pySplit ':' time_str with
  | [h, m] => do
      let hv ← pyInt h
      let mv ← pyInt m
      pure (hv * 60 + mv)
  | _ => none

/-- `Course._parse_time_range`: split on `-` into exactly two pieces,
strip each, convert each with `_time_to_minutes`. -/
def Course.parse_time_range (time_range : String) : Option (Int × Int) :=
  match pySplit '-' time_range.data with
  | [startStr, endStr] => do
      let s ← Course.time_to_minutes (pyStrip startStr)
      let e ← Course.time_to_minutes (pyStrip endStr)
      pure (s, e)
  | _ => none

/-- `Course._times_overlap`: parse both ranges and test
`start1 < end2 and start2 < end1`; any parse failure is caught by the
bare `except` and reported as "no conflict" (`false`). -/
def Course.times_overlap (time1 time2 : String) : Bool :=
  match Course.parse_time_range time1, Course.parse_time_range time2 with
  | some (s1, e1), some (s2, e2) => s1 < e2 && s2 < e1
  | _, _ => false

/-- `Course._has_common_days`: `set(self.days) & set(other_days) ≠ ∅`,
a character-set intersection of the two day strings. -/
def Course.has_common_days (c : Course) (other_days : String) : Bool :=
  c.days.data.any (fun ch => other_days.data.contains ch)

/-- `Course.has_schedule_conflict`: unscheduled courses (empty `days` or
`time` on either side) never conflict; otherwise require a shared day
character and overlapping time ranges. -/
def Course.has_schedule_conflict (c other : Course) : Bool :=
  if c.days.isEmpty || c.time.isEmpty || other.days.isEmpty || other.time.isEmpty then
    false
  else if ! c.has_common_days other.days then
    false
  else
    Course.times_overlap c.time other.time

example : Course.parse_time_range "9:00-10:15" = some (540, 615) := by decide
example : Course.parse_time_range " 9:00 - 10:15 " = some (540, 615) := by decide
example : Course.parse_time_range "TBA" = none := by decide
example : Course.parse_time_range "" = none := by decide
example : Course.times_overlap "9:00-10:15" "10:00-11:00" = true := by decide
example : Course.times_overlap "9:00-10:15" "10:15-11:30" = false := by decide

/-!
## The Enrollment Registry (`enrollment_system.py`, class `EnrollmentSystem`)

Each operation returns a `(success, message)` result next to the new
state.  The human-readable message strings of the source are modelled
as the constructors of `Msg`, each carrying the data interpolated into
the corresponding f-string.
-/

/-- The result messages of `EnrollmentSystem`, one constructor per
f-string in the source, carrying the interpolated data. -/
inductive Msg where
  | emptyStudentFields
  | studentExists (student_id : String)
  | registeredOk (name student_id : String)
  | emptyCourseFields
  | courseExists (course_id : String)
  | maxNotPositive
  | maxNotNumber
  | courseAdded (name course_id : String)
  | studentNotFound (student_id : String)
  | courseNotFound (course_id : String)
  | alreadyEnrolled (course_name : String)
  | courseFull (course_name : String)
  | scheduleConflict (course enrolled_course : Course)
  | enrolledOk (student_name course_name : String)
  | notEnrolled (course_name : String)
  | droppedOk (student_name course_name : String)
deriving DecidableEq

/-- The in-memory state of `EnrollmentSystem`: the `students` and
`courses` dicts (the `data_directory` and the CSV files behind
`save_data`/`load_data` are I/O-only and not part of the state). -/
structure EnrollmentSystem where
  students : List (String × Student)
  courses : List (String × Course)
deriving DecidableEq

/-- The state of a freshly constructed `EnrollmentSystem` when no CSV
files exist in the data directory. -/
def EnrollmentSystem.empty : EnrollmentSystem := ⟨[], []⟩

/-- `EnrollmentSystem.register_student`: reject empty id or name, then a
duplicate id; otherwise insert a fresh `Student` and persist. -/
def EnrollmentSystem.register_student (es : EnrollmentSystem)
    (student_id name : String) : (Bool × Msg) × EnrollmentSystem :=
  if student_id.isEmpty || name.isEmpty then
    ((false, .emptyStudentFields), es)
  else if (lookupA es.students student_id).isSome then
    ((false, .studentExists student_id), es)
  else
    ((true, .registeredOk name student_id),
      { es with students := alistSet es.students student_id ⟨student_id, name, []⟩ })

/-- `EnrollmentSystem.add_course`: reject an empty required field, then
a duplicate id, then a `max_students` that does not convert with
`int(...)` (`none` here) or converts to a non-positive number; otherwise
insert a fresh `Course` (empty schedule fields) and persist. -/
def EnrollmentSystem.add_course (es : EnrollmentSystem)
    (course_id name instructor : String) (max_students : Option Int) :
    (Bool × Msg) × EnrollmentSystem :=
  if course_id.isEmpty || name.isEmpty || instructor.isEmpty then
    ((false, .emptyCourseFields), es)
  else if (lookupA es.courses course_id).isSome then
    ((false, .courseExists course_id), es)
  else
    match max_students with
    | none => ((false, .maxNotNumber), es)
    | some m =>
        if m ≤ 0 then ((false, .maxNotPositive), es)
        else
          ((true, .courseAdded name course_id),
            { es with courses :=
                alistSet es.courses course_id ⟨course_id, name, instructor, [], m, "", "", ""⟩ })

/-- The schedule-conflict scan of `enroll_student`: walk the student's
`registered_courses`, skip ids missing from the courses dict, and return
the first enrolled course that conflicts with the target course. -/
def findConflict (es : EnrollmentSystem) (course : Course) :
    List String → Option Course
  | [] => none
  | ecid :: rest =>
      match lookupA es.courses ecid with
      | some ec =>
          if course.has_schedule_conflict ec then some ec
          else findConflict es course rest
      | none => findConflict es course rest

/-- `EnrollmentSystem.enroll_student`: validate in order — student
exists, course exists, not already enrolled, course not full, no
schedule conflict with any currently enrolled course — and only then
mutate both sides and persist. -/
def EnrollmentSystem.enroll_student (es : EnrollmentSystem)
    (student_id course_id : String) : (Bool × Msg) × EnrollmentSystem :=
  match lookupA es.students student_id with
  | none => ((false, .studentNotFound student_id), es)
  | some student =>
      match lookupA es.courses course_id with
      | none => ((false, .courseNotFound course_id), es)
      | some course =>
          if course_id ∈ student.registered_courses then
            ((false, .alreadyEnrolled course.name), es)
          else if course.is_full then
            ((false, .courseFull course.name), es)
          else
            match findConflict es course student.registered_courses with
            | some ec => ((false, .scheduleConflict course ec), es)
            | none =>
                ((true, .enrolledOk student.name course.name),
                  { students :=
                      alistSet es.students student_id (student.add_course course_id),
                    courses :=
                      alistSet es.courses course_id (course.add_student student_id).2 })

/-- `EnrollmentSystem.drop_course`: validate student, course and actual
enrollment, then remove from both sides and persist. -/
def EnrollmentSystem.drop_course (es : EnrollmentSystem)
    (student_id course_id : String) : (Bool × Msg) × EnrollmentSystem :=
  match lookupA es.students student_id with
  | none => ((false, .studentNotFound student_id), es)
  | some student =>
      match lookupA es.courses course_id with
      | none => ((false, .courseNotFound course_id), es)
      | some course =>
          if course_id ∉ student.registered_courses then
            ((false, .notEnrolled course.name), es)
          else
            ((true, .droppedOk student.name course.name),
              { students :=
                  alistSet es.students student_id (student.remove_course course_id),
                courses :=
                  alistSet es.courses course_id (course.remove_student student_id) })

/-- The states reachable from the empty system by Registry operations. -/
inductive Reach : EnrollmentSystem → Prop where
  | empty : Reach EnrollmentSystem.empty
  | register (es : EnrollmentSystem) (sid nm : String) :
      Reach es → Reach (es.register_student sid nm).2
  | course (es : EnrollmentSystem) (cid nm instr : String) (mx : Option Int) :
      Reach es → Reach (es.add_course cid nm instr mx).2
  | enroll (es : EnrollmentSystem) (sid cid : String) :
      Reach es → Reach (es.enroll_student sid cid).2
  | drop (es : EnrollmentSystem) (sid cid : String) :
      Reach es → Reach (es.drop_course sid cid).2

/-!
## The registry invariant

Bundles the facts maintained by every Registry operation: dict keys
agree with the entities' own id fields, enrollment is recorded on both
sides in lockstep, and no course exceeds its capacity.
-/

/-- The invariant of a registry state: keys match id fields,
bidirectional enrollment consistency, the capacity bound, and both
membership sets referring only to ids present in the dicts. -/
structure Inv (es : EnrollmentSystem) : Prop where
  keyS : ∀ sid s, lookupA es.students sid = some s → s.student_id = sid
  keyC : ∀ cid c, lookupA es.courses cid = some c → c.course_id = cid
  consistent : ∀ sid s cid c,
    lookupA es.students sid = some s → lookupA es.courses cid = some c →
    (c.course_id ∈ s.registered_courses ↔ s.student_id ∈ c.enrolled_students)
  capacity : ∀ cid c, lookupA es.courses cid = some c →
    (c.enrolled_students.length : Int) ≤ c.max_students
  enrolledExists : ∀ cid c, lookupA es.courses cid = some c →
    ∀ x ∈ c.enrolled_students, (lookupA es.students x).isSome
  registeredExists : ∀ sid s, lookupA es.students sid = some s →
    ∀ y ∈ s.registered_courses, (lookupA es.courses y).isSome

/-!
## Basic lemmas about the set and dict models
-/

theorem mem_setAdd {l : List String} {x y : String} :
    y ∈ setAdd l x ↔ y = x ∨ y ∈ l := by
  unfold setAdd
  split_ifs with h
  · constructor
    · exact fun hy => Or.inr hy
    · rintro (rfl | hy)
      · exact h
      · exact hy
  · simp [List.mem_cons]

theorem setAdd_of_mem {l : List String} {x : String} (h : x ∈ l) :
    setAdd l x = l := by
  simp [setAdd, h]

theorem setAdd_of_not_mem {l : List String} {x : String} (h : x ∉ l) :
    setAdd l x = x :: l := by
  simp [setAdd, h]

theorem length_setAdd_le (l : List String) (x : String) :
    (setAdd l x).length ≤ l.length + 1 := by
  unfold setAdd
  split_ifs <;> simp

theorem mem_setDiscard {l : List String} {x y : String} :
    y ∈ setDiscard l x ↔ y ∈ l ∧ y ≠ x := by
  simp [setDiscard]

theorem length_setDiscard_le (l : List String) (x : String) :
    (setDiscard l x).length ≤ l.length :=
  List.length_filter_le _ _

theorem setDiscard_of_not_mem {l : List String} {x : String} (h : x ∉ l) :
    setDiscard l x = l := by
  unfold setDiscard
  apply List.filter_eq_self.2
  intro y hy
  have : y ≠ x := fun hyx => h (hyx ▸ hy)
  simpa using this

theorem setDiscard_cons_self {l : List String} {x : String} :
    setDiscard (x :: l) x = setDiscard l x := by
  simp [setDiscard]

theorem lookupA_alistSet {α : Type} (m : List (String × α)) (k kq : String) (v : α) :
    lookupA (alistSet m k v) kq = if k = kq then some v else lookupA m kq := by
  induction m with
  | nil =>
      simp only [alistSet, lookupA]
  | cons hd tl ih =>
      obtain ⟨k0, v0⟩ := hd
      by_cases h : k0 = k
      · subst h
        by_cases h2 : k0 = kq <;> simp [alistSet, lookupA, h2]
      · by_cases h2 : k0 = kq
        · subst h2
          simp [alistSet, lookupA, h, Ne.symm h]
        · simp [alistSet, lookupA, h, h2, ih]

/-- `Course.add_student` on a course that is not full: returns `true`
and inserts. -/
theorem Course.add_student_of_not_full (c : Course) (sid : String)
    (h : c.is_full = false) :
    c.add_student sid =
      (true, { c with enrolled_students := setAdd c.enrolled_students sid }) := by
  have h2 : ¬ ((c.enrolled_students.length : Int) ≥ c.max_students) := by
    simpa [Course.is_full] using h
  simp [Course.add_student, h2]

/-- Updating one key of a dict keeps every present key present. -/
theorem isSome_lookupA_alistSet {α : Type} {m : List (String × α)} {x : String}
    (k : String) (v : α) (h : (lookupA m x).isSome) :
    (lookupA (alistSet m k v) x).isSome := by
  rw [lookupA_alistSet]
  split_ifs with hk
  · rfl
  · exact h

/-!
## The Registry operations preserve the invariant
-/

theorem register_student_inv (es : EnrollmentSystem) (sid nm : String)
    (h : Inv es) : Inv (es.register_student sid nm).2 := by
  unfold EnrollmentSystem.register_student
  cases h1 : (sid.isEmpty || nm.isEmpty) with
  | true => simpa using h
  | false =>
      cases h2 : (lookupA es.students sid).isSome with
      | true => simp only [h1, h2]; simpa using h
      | false =>
          have hnone : lookupA es.students sid = none := by
            cases hl : lookupA es.students sid
            · rfl
            · rw [hl] at h2; simp at h2
          simp only [h1, h2, Bool.false_eq_true, if_false]
          constructor
          · intro sid2 s hs
            rw [lookupA_alistSet] at hs
            split_ifs at hs with he
            · cases hs; exact he.symm ▸ rfl
            · exact h.keyS sid2 s hs
          · exact h.keyC
          · intro sid2 s cid c hs hc
            rw [lookupA_alistSet] at hs
            split_ifs at hs with he
            · cases hs
              constructor
              · intro hmem; simp at hmem
              · intro hmem
                have := h.enrolledExists cid c hc _ hmem
                rw [hnone] at this; simp at this
            · exact h.consistent sid2 s cid c hs hc
          · exact h.capacity
          · intro cid c hc x hx
            exact isSome_lookupA_alistSet _ _ (h.enrolledExists cid c hc x hx)
          · intro sid2 s hs
            rw [lookupA_alistSet] at hs
            split_ifs at hs with he
            · cases hs; intro y hy; simp at hy
            · exact h.registeredExists sid2 s hs

theorem add_course_inv (es : EnrollmentSystem) (cid nm instr : String)
    (mx : Option Int) (h : Inv es) : Inv (es.add_course cid nm instr mx).2 := by
  unfold EnrollmentSystem.add_course
  cases h1 : (cid.isEmpty || nm.isEmpty || instr.isEmpty) with
  | true => simpa using h
  | false =>
      cases h2 : (lookupA es.courses cid).isSome with
      | true => simp only [h1, h2]; simpa using h
      | false =>
          have hnone : lookupA es.courses cid = none := by
            cases hl : lookupA es.courses cid
            · rfl
            · rw [hl] at h2; simp at h2
          simp only [h1, h2, Bool.false_eq_true, if_false]
          cases mx with
          | none => simpa using h
          | some m =>
              by_cases h3 : m ≤ 0
              · simpa [h3] using h
              · simp only [h3, if_false]
                constructor
                · exact h.keyS
                · intro cid2 c hc
                  rw [lookupA_alistSet] at hc
                  split_ifs at hc with he
                  · cases hc; exact he.symm ▸ rfl
                  · exact h.keyC cid2 c hc
                · intro sid2 s cid2 c hs hc
                  rw [lookupA_alistSet] at hc
                  split_ifs at hc with he
                  · cases hc
                    constructor
                    · intro hmem
                      have := h.registeredExists sid2 s hs _ hmem
                      simp [hnone] at this
                    · intro hmem; simp at hmem
                  · exact h.consistent sid2 s cid2 c hs hc
                · intro cid2 c hc
                  rw [lookupA_alistSet] at hc
                  split_ifs at hc with he
                  · cases hc; simpa using le_of_lt (lt_of_not_le h3)
                  · exact h.capacity cid2 c hc
                · intro cid2 c hc x hx
                  rw [lookupA_alistSet] at hc
                  split_ifs at hc with he
                  · cases hc; simp at hx
                  · exact h.enrolledExists cid2 c hc x hx
                · intro sid2 s hs y hy
                  exact isSome_lookupA_alistSet _ _ (h.registeredExists sid2 s hs y hy)

theorem enroll_student_inv (es : EnrollmentSystem) (sid cid : String)
    (h : Inv es) : Inv (es.enroll_student sid cid).2 := by
  unfold EnrollmentSystem.enroll_student
  cases hs : lookupA es.students sid with
  | none => simpa using h
  | some student =>
      cases hc : lookupA es.courses cid with
      | none => simpa using h
      | some course =>
          by_cases hreg : cid ∈ student.registered_courses
          · simpa [hreg] using h
          · cases hfull : course.is_full with
            | true => simpa [hreg, hfull] using h
            | false =>
                cases hcf : findConflict es course student.registered_courses with
                | some ec => simpa [hreg, hfull, hcf] using h
                | none =>
                    have hsid : student.student_id = sid := h.keyS sid student hs
                    have hcid : course.course_id = cid := h.keyC cid course hc
                    simp only [hreg, hfull, hcf, if_neg, if_false, Bool.false_eq_true,
                      not_false_eq_true, if_true,
                      Course.add_student_of_not_full course sid hfull]
                    constructor
                    · intro sid2 s2 hs2
                      rw [lookupA_alistSet] at hs2
                      split_ifs at hs2 with he
                      · cases hs2
                        simpa [Student.add_course] using he.symm ▸ hsid
                      · exact h.keyS sid2 s2 hs2
                    · intro cid2 c2 hc2
                      rw [lookupA_alistSet] at hc2
                      split_ifs at hc2 with he
                      · cases hc2
                        simpa using he.symm ▸ hcid
                      · exact h.keyC cid2 c2 hc2
                    · intro sid2 s2 cid2 c2 hs2 hc2
                      rw [lookupA_alistSet] at hs2 hc2
                      split_ifs at hs2 hc2 with he1 he2 he2
                      · cases hs2; cases hc2
                        apply iff_of_true
                        · simpa [Student.add_course, mem_setAdd] using Or.inl hcid
                        · simpa [Student.add_course, mem_setAdd] using Or.inl hsid
                      · cases hs2
                        have hid2 : c2.course_id = cid2 := h.keyC cid2 c2 hc2
                        have hne : c2.course_id ≠ cid := fun hcc => he2 (hcc ▸ hid2)
                        have base := h.consistent sid student cid2 c2 hs hc2
                        simpa [Student.add_course, mem_setAdd, hne] using base
                      · cases hc2
                        have hid2 : s2.student_id = sid2 := h.keyS sid2 s2 hs2
                        have hne : s2.student_id ≠ sid := fun hss => he1 (hss ▸ hid2)
                        have base := h.consistent sid2 s2 cid course hs2 hc
                        simpa [mem_setAdd, hne] using base
                      · exact h.consistent sid2 s2 cid2 c2 hs2 hc2
                    · intro cid2 c2 hc2
                      rw [lookupA_alistSet] at hc2
                      split_ifs at hc2 with he
                      · cases hc2
                        have hlt : (course.enrolled_students.length : Int) <
                            course.max_students := by
                          have := hfull
                          simp [Course.is_full] at this
                          exact this
                        have hlen := length_setAdd_le course.enrolled_students sid
                        have : ((setAdd course.enrolled_students sid).length : Int) ≤
                            (course.enrolled_students.length : Int) + 1 := by
                          exact_mod_cast hlen
                        simpa using le_trans this (by linarith)
                      · exact h.capacity cid2 c2 hc2
                    · intro cid2 c2 hc2 x hx
                      rw [lookupA_alistSet] at hc2
                      split_ifs at hc2 with he
                      · cases hc2
                        simp only [mem_setAdd] at hx
                        rcases hx with rfl | hx
                        · rw [lookupA_alistSet]
                          simp
                        · exact isSome_lookupA_alistSet _ _
                            (h.enrolledExists cid course hc x hx)
                      · exact isSome_lookupA_alistSet _ _
                          (h.enrolledExists cid2 c2 hc2 x hx)
                    · intro sid2 s2 hs2 y hy
                      rw [lookupA_alistSet] at hs2
                      split_ifs at hs2 with he
                      · cases hs2
                        simp only [Student.add_course, mem_setAdd] at hy
                        rcases hy with rfl | hy
                        · rw [lookupA_alistSet]
                          simp
                        · exact isSome_lookupA_alistSet _ _
                            (h.registeredExists sid student hs y hy)
                      · exact isSome_lookupA_alistSet _ _
                          (h.registeredExists sid2 s2 hs2 y hy)

theorem drop_course_inv (es : EnrollmentSystem) (sid cid : String)
    (h : Inv es) : Inv (es.drop_course sid cid).2 := by
  unfold EnrollmentSystem.drop_course
  cases hs : lookupA es.students sid with
  | none => simpa using h
  | some student =>
      cases hc : lookupA es.courses cid with
      | none => simpa using h
      | some course =>
          by_cases hreg : cid ∈ student.registered_courses
          · have hsid : student.student_id = sid := h.keyS sid student hs
            have hcid : course.course_id = cid := h.keyC cid course hc
            simp only [hreg, not_true_eq_false, if_false, Bool.false_eq_true]
            constructor
            · intro sid2 s2 hs2
              rw [lookupA_alistSet] at hs2
              split_ifs at hs2 with he
              · cases hs2
                simpa [Student.remove_course] using he.symm ▸ hsid
              · exact h.keyS sid2 s2 hs2
            · intro cid2 c2 hc2
              rw [lookupA_alistSet] at hc2
              split_ifs at hc2 with he
              · cases hc2
                simpa [Course.remove_student] using he.symm ▸ hcid
              · exact h.keyC cid2 c2 hc2
            · intro sid2 s2 cid2 c2 hs2 hc2
              rw [lookupA_alistSet] at hs2 hc2
              split_ifs at hs2 hc2 with he1 he2 he2
              · cases hs2; cases hc2
                apply iff_of_false
                · simp [Course.remove_student, Student.remove_course,
                    mem_setDiscard, hcid]
                · simp [Course.remove_student, Student.remove_course,
                    mem_setDiscard, hsid]
              · cases hs2
                have hid2 : c2.course_id = cid2 := h.keyC cid2 c2 hc2
                have hne : c2.course_id ≠ cid := fun hcc => he2 (hcc ▸ hid2)
                have base := h.consistent sid student cid2 c2 hs hc2
                simpa [Student.remove_course, mem_setDiscard, hne] using base
              · cases hc2
                have hid2 : s2.student_id = sid2 := h.keyS sid2 s2 hs2
                have hne : s2.student_id ≠ sid := fun hss => he1 (hss ▸ hid2)
                have base := h.consistent sid2 s2 cid course hs2 hc
                simpa [Course.remove_student, mem_setDiscard, hne] using base
              · exact h.consistent sid2 s2 cid2 c2 hs2 hc2
            · intro cid2 c2 hc2
              rw [lookupA_alistSet] at hc2
              split_ifs at hc2 with he
              · cases hc2
                have hlen := length_setDiscard_le course.enrolled_students sid
                have hcast : ((setDiscard course.enrolled_students sid).length : Int) ≤
                    (course.enrolled_students.length : Int) := by exact_mod_cast hlen
                exact le_trans hcast (h.capacity cid course hc)
              · exact h.capacity cid2 c2 hc2
            · intro cid2 c2 hc2 x hx
              rw [lookupA_alistSet] at hc2
              split_ifs at hc2 with he
              · cases hc2
                simp only [Course.remove_student, mem_setDiscard] at hx
                exact isSome_lookupA_alistSet _ _
                  (h.enrolledExists cid course hc x hx.1)
              · exact isSome_lookupA_alistSet _ _
                  (h.enrolledExists cid2 c2 hc2 x hx)
            · intro sid2 s2 hs2 y hy
              rw [lookupA_alistSet] at hs2
              split_ifs at hs2 with he
              · cases hs2
                simp only [Student.remove_course, mem_setDiscard] at hy
                exact isSome_lookupA_alistSet _ _
                  (h.registeredExists sid student hs y hy.1)
              · exact isSome_lookupA_alistSet _ _
                  (h.registeredExists sid2 s2 hs2 y hy)
          · simpa [hreg] using h

/-- Every reachable registry state satisfies the invariant. -/
theorem reach_inv (es : EnrollmentSystem) (h : Reach es) : Inv es := by
  induction h with
  | empty =>
      constructor
      · intro sid s hsx; simp [EnrollmentSystem.empty, lookupA] at hsx
      · intro cid c hcx; simp [EnrollmentSystem.empty, lookupA] at hcx
      · intro sid s cid c hsx hcx; simp [EnrollmentSystem.empty, lookupA] at hsx
      · intro cid c hcx; simp [EnrollmentSystem.empty, lookupA] at hcx
      · intro cid c hcx; simp [EnrollmentSystem.empty, lookupA] at hcx
      · intro sid s hsx; simp [EnrollmentSystem.empty, lookupA] at hsx
  | register es sid nm _ ih => exact register_student_inv es sid nm ih
  | course es cid nm instr mx _ ih => exact add_course_inv es cid nm instr mx ih
  | enroll es sid cid _ ih => exact enroll_student_inv es sid cid ih
  | drop es sid cid _ ih => exact drop_course_inv es sid cid ih

/-!
## Claim theorems
-/

/-- C1: in every state of the `EnrollmentSystem` reachable from the
empty state by `register_student`, `add_course`, `enroll_student` and
`drop_course`, and for every student `s` and course `c` it contains,
`c.course_id` is in `s.registered_courses` if and only if
`s.student_id` is in `c.enrolled_students`: the Registry operations
update both sides together or neither. -/
theorem C1_bidirectional_consistency (es : EnrollmentSystem) (h : Reach es) :
    ∀ sid s cid c, lookupA es.students sid = some s →
      lookupA es.courses cid = some c →
      (c.course_id ∈ s.registered_courses ↔ s.student_id ∈ c.enrolled_students) :=
  (reach_inv es h).consistent

/-- Witness for C1 at a concrete reachable state: register `s1`, add
course `c1`, enroll; both membership sets then agree. -/
theorem C1_bidirectional_consistency_witness :
    ("c1" ∈ (Student.mk "s1" "Alice" ["c1"]).registered_courses ↔
      "s1" ∈ (Course.mk "c1" "Calculus" "Ng" ["s1"] 3 "" "" "").enrolled_students) := by
  have h1 : Reach (((EnrollmentSystem.empty.register_student "s1" "Alice").2.add_course
      "c1" "Calculus" "Ng" (some 3)).2.enroll_student "s1" "c1").2 :=
    Reach.enroll _ _ _ (Reach.course _ _ _ _ _ (Reach.register _ _ _ Reach.empty))
  exact C1_bidirectional_consistency _ h1 "s1" (Student.mk "s1" "Alice" ["c1"])
    "c1" (Course.mk "c1" "Calculus" "Ng" ["s1"] 3 "" "" "") (by decide) (by decide)

/-- C2: in every reachable state of the `EnrollmentSystem`, every course
satisfies `len(c.enrolled_students) <= c.max_students`. -/
theorem C2_capacity_bound (es : EnrollmentSystem) (h : Reach es) :
    ∀ cid c, lookupA es.courses cid = some c →
      (c.enrolled_students.length : Int) ≤ c.max_students :=
  (reach_inv es h).capacity

/-- Witness for C2 at a concrete reachable state with one enrollment. -/
theorem C2_capacity_bound_witness :
    (((Course.mk "c1" "Calculus" "Ng" ["s1"] 3 "" "" "").enrolled_students.length : Int) ≤
      (Course.mk "c1" "Calculus" "Ng" ["s1"] 3 "" "" "").max_students) := by
  have h1 : Reach (((EnrollmentSystem.empty.register_student "s1" "Alice").2.add_course
      "c1" "Calculus" "Ng" (some 3)).2.enroll_student "s1" "c1").2 :=
    Reach.enroll _ _ _ (Reach.course _ _ _ _ _ (Reach.register _ _ _ Reach.empty))
  exact C2_capacity_bound _ h1 "c1" (Course.mk "c1" "Calculus" "Ng" ["s1"] 3 "" "" "")
    (by decide)

/-- The conflict scan of `enroll_student` finds nothing exactly when no
currently registered course (present in the courses dict) conflicts with
the target course. -/
theorem findConflict_eq_none (es : EnrollmentSystem) (course : Course)
    (l : List String) :
    findConflict es course l = none ↔
      ∀ ecid ∈ l, ∀ ec, lookupA es.courses ecid = some ec →
        course.has_schedule_conflict ec = false := by
  induction l with
  | nil => simp [findConflict]
  | cons a t ih =>
      cases hl : lookupA es.courses a with
      | none => simp [findConflict, hl, ih]
      | some ec =>
          cases hcf : course.has_schedule_conflict ec <;>
            simp [findConflict, hl, hcf, ih]

/-- C3: `enroll_student` validates in a fixed order and returns the
first applicable failure — student exists, course exists, not already
enrolled, course not full, no schedule conflict with any currently
enrolled course — leaves the state unchanged on every failure (in
particular on a second enrollment of the same pair), and mutates the
state exactly when all five checks pass. -/
theorem C3_enroll_order_and_failure_purity (es : EnrollmentSystem)
    (sid cid : String) :
    (lookupA es.students sid = none →
      es.enroll_student sid cid = ((false, .studentNotFound sid), es)) ∧
    (∀ student, lookupA es.students sid = some student →
      lookupA es.courses cid = none →
      es.enroll_student sid cid = ((false, .courseNotFound cid), es)) ∧
    (∀ student course, lookupA es.students sid = some student →
      lookupA es.courses cid = some course →
      cid ∈ student.registered_courses →
      es.enroll_student sid cid = ((false, .alreadyEnrolled course.name), es)) ∧
    (∀ student course, lookupA es.students sid = some student →
      lookupA es.courses cid = some course →
      cid ∉ student.registered_courses → course.is_full = true →
      es.enroll_student sid cid = ((false, .courseFull course.name), es)) ∧
    (∀ student course, lookupA es.students sid = some student →
      lookupA es.courses cid = some course →
      cid ∉ student.registered_courses → course.is_full = false →
      ¬ (∀ ecid ∈ student.registered_courses, ∀ ec,
          lookupA es.courses ecid = some ec →
          course.has_schedule_conflict ec = false) →
      ∃ ec, es.enroll_student sid cid = ((false, .scheduleConflict course ec), es)) ∧
    (∀ student course, lookupA es.students sid = some student →
      lookupA es.courses cid = some course →
      cid ∉ student.registered_courses → course.is_full = false →
      (∀ ecid ∈ student.registered_courses, ∀ ec,
          lookupA es.courses ecid = some ec →
          course.has_schedule_conflict ec = false) →
      (es.enroll_student sid cid).1.1 = true ∧
      (es.enroll_student sid cid).2 =
        ⟨alistSet es.students sid (student.add_course cid),
         alistSet es.courses cid (course.add_student sid).2⟩) ∧
    ((es.enroll_student sid cid).1.1 = false →
      (es.enroll_student sid cid).2 = es) := by
  refine ⟨?_, ?_, ?_, ?_, ?_, ?_, ?_⟩
  · intro h
    simp [EnrollmentSystem.enroll_student, h]
  · intro student h1 h2
    simp [EnrollmentSystem.enroll_student, h1, h2]
  · intro student course h1 h2 h3
    simp [EnrollmentSystem.enroll_student, h1, h2, h3]
  · intro student course h1 h2 h3 h4
    simp [EnrollmentSystem.enroll_student, h1, h2, h3, h4]
  · intro student course h1 h2 h3 h4 h5
    rw [← findConflict_eq_none es course student.registered_courses] at h5
    cases hcf : findConflict es course student.registered_courses with
    | none => exact absurd hcf h5
    | some ec =>
        refine ⟨ec, ?_⟩
        simp [EnrollmentSystem.enroll_student, h1, h2, h3, h4, hcf]
  · intro student course h1 h2 h3 h4 h5
    rw [← findConflict_eq_none es course student.registered_courses] at h5
    constructor <;>
      simp [EnrollmentSystem.enroll_student, h1, h2, h3, h4, h5]
  · intro hfail
    unfold EnrollmentSystem.enroll_student at hfail ⊢
    cases h1 : lookupA es.students sid with
    | none => rfl
    | some student =>
        cases h2 : lookupA es.courses cid with
        | none => simp [h1, h2]
        | some course =>
            by_cases h3 : cid ∈ student.registered_courses
            · simp [h1, h2, h3]
            · cases h4 : course.is_full with
              | true => simp [h1, h2, h3, h4]
              | false =>
                  cases h5 : findConflict es course student.registered_courses with
                  | some ec => simp [h1, h2, h3, h4, h5]
                  | none =>
                      rw [h1, h2] at hfail
                      simp [h3, h4, h5] at hfail

/-- Witness for C3: a second enrollment of an already-enrolled pair
fails with the already-enrolled message and leaves the state exactly as
it was. -/
theorem C3_enroll_order_and_failure_purity_witness :
    (EnrollmentSystem.enroll_student
        ⟨[("s1", ⟨"s1", "Alice", ["c1"]⟩)],
         [("c1", ⟨"c1", "Calculus", "Ng", ["s1"], 3, "", "", ""⟩)]⟩ "s1" "c1") =
      ((false, .alreadyEnrolled "Calculus"),
        ⟨[("s1", ⟨"s1", "Alice", ["c1"]⟩)],
         [("c1", ⟨"c1", "Calculus", "Ng", ["s1"], 3, "", "", ""⟩)]⟩) := by
  have h := (C3_enroll_order_and_failure_purity
      ⟨[("s1", ⟨"s1", "Alice", ["c1"]⟩)],
       [("c1", ⟨"c1", "Calculus", "Ng", ["s1"], 3, "", "", ""⟩)]⟩ "s1" "c1").2.2.1
      ⟨"s1", "Alice", ["c1"]⟩ ⟨"c1", "Calculus", "Ng", ["s1"], 3, "", "", ""⟩
      (by decide) (by decide) (by decide)
  simpa using h

/-- A time range that parses is not the empty string, so it passes the
unscheduled-course guard of `has_schedule_conflict`. -/
theorem parse_time_range_ne_empty {t : String} {p : Int × Int}
    (h : Course.parse_time_range t = some p) : t.isEmpty = false := by
  cases hie : t.isEmpty
  · rfl
  · have ht : t = "" := (String.isEmpty_iff t).1 hie
    subst ht
    rw [show Course.parse_time_range "" = none by decide] at h
    cases h

/-- Courses sharing a day character both have non-empty day strings. -/
theorem has_common_days_ne_empty {a : Course} {d : String}
    (h : a.has_common_days d = true) :
    a.days.isEmpty = false ∧ d.isEmpty = false := by
  rw [Course.has_common_days, List.any_eq_true] at h
  obtain ⟨ch, hch1, hch2⟩ := h
  rw [List.elem_iff] at hch2
  constructor
  · cases hie : a.days.isEmpty
    · rfl
    · have : a.days = "" := (String.isEmpty_iff _).1 hie
      rw [this] at hch1
      cases hch1
  · cases hie : d.isEmpty
    · rfl
    · have : d = "" := (String.isEmpty_iff _).1 hie
      rw [this] at hch2
      cases hch2

/-- C4: for two courses that share a day character and whose time
strings both parse as minute ranges, `has_schedule_conflict` is the
half-open interval test `start1 < end2 AND start2 < end1`; courses that
merely touch at an endpoint do not conflict. -/
theorem C4_half_open_interval_overlap (a b : Course) (s1 e1 s2 e2 : Int)
    (hd : a.has_common_days b.days = true)
    (h1 : Course.parse_time_range a.time = some (s1, e1))
    (h2 : Course.parse_time_range b.time = some (s2, e2)) :
    (a.has_schedule_conflict b = true ↔ (s1 < e2 ∧ s2 < e1)) := by
  obtain ⟨hda, hdb⟩ := has_common_days_ne_empty hd
  have hta := parse_time_range_ne_empty h1
  have htb := parse_time_range_ne_empty h2
  simp [Course.has_schedule_conflict, hda, hdb, hta, htb, hd,
    Course.times_overlap, h1, h2]

/-- Witness for C4: `9:00-10:15` against `10:15-11:30` on a shared day
does not conflict — touching endpoints are not overlap. -/
theorem C4_half_open_interval_overlap_witness :
    Course.has_schedule_conflict
      ⟨"c1", "Algebra", "Ng", [], 30, "MWF", "9:00-10:15", ""⟩
      ⟨"c2", "Logic", "Ix", [], 30, "M", "10:15-11:30", ""⟩ = false := by
  have h := C4_half_open_interval_overlap
    ⟨"c1", "Algebra", "Ng", [], 30, "MWF", "9:00-10:15", ""⟩
    ⟨"c2", "Logic", "Ix", [], 30, "M", "10:15-11:30", ""⟩
    540 615 615 690 (by decide) (by decide) (by decide)
  cases hc : Course.has_schedule_conflict
      ⟨"c1", "Algebra", "Ng", [], 30, "MWF", "9:00-10:15", ""⟩
      ⟨"c2", "Logic", "Ix", [], 30, "M", "10:15-11:30", ""⟩
  · rfl
  · exact absurd (h.1 hc).2 (by decide)

/-- C5 (code evaluated at the failing input): `_has_common_days`
intersects the raw character sets of the day strings, so a Thursday-only
course (`days = "Th"`) and a Tuesday-only course (`days = "T"`) are
treated as sharing the character `T`, and `has_schedule_conflict`
reports a conflict for identical time ranges — the two-character code
`Th` is never matched as a unit in the conflict path. -/
theorem C5_Th_matched_as_characters :
    Course.has_schedule_conflict
      ⟨"c1", "Seminar", "Ng", [], 30, "Th", "9:00-10:15", ""⟩
      ⟨"c2", "Lab", "Ix", [], 30, "T", "9:00-10:15", ""⟩ = true := by decide

/-- C7: if two courses pass the guard and the day-intersection test but
either time string fails to parse as `HH:MM-HH:MM`, the bare `except`
of `_times_overlap` yields `false`: `has_schedule_conflict` fails open
and (being a total function here) propagates no error. -/
theorem C7_fail_open_parsing (a b : Course)
    (hd : a.has_common_days b.days = true)
    (hta : a.time.isEmpty = false) (htb : b.time.isEmpty = false)
    (hmal : Course.parse_time_range a.time = none ∨
      Course.parse_time_range b.time = none) :
    a.has_schedule_conflict b = false := by
  obtain ⟨hda, hdb⟩ := has_common_days_ne_empty hd
  have hov : Course.times_overlap a.time b.time = false := by
    rcases hmal with h | h
    · simp [Course.times_overlap, h]
    · cases hp : Course.parse_time_range a.time with
      | none => simp [Course.times_overlap, hp]
      | some p => obtain ⟨x, y⟩ := p; simp [Course.times_overlap, hp, h]
  simp [Course.has_schedule_conflict, hda, hdb, hta, htb, hd, hov]

/-- Witness for C7: a malformed time string (`"TBA"`) on a shared day is
silently treated as non-conflicting. -/
theorem C7_fail_open_parsing_witness :
    Course.has_schedule_conflict
      ⟨"c1", "Studio", "Ng", [], 30, "MWF", "TBA", ""⟩
      ⟨"c2", "Survey", "Ix", [], 30, "WF", "9:00-10:15", ""⟩ = false :=
  C7_fail_open_parsing
    ⟨"c1", "Studio", "Ng", [], 30, "MWF", "TBA", ""⟩
    ⟨"c2", "Survey", "Ix", [], 30, "WF", "9:00-10:15", ""⟩
    (by decide) (by decide) (by decide) (Or.inl (by decide))

/-- C8 counterexample: the capacity check of `add_student` runs before
the set insert, so re-adding the already-enrolled student of a full
course returns `false`, not `true` as the claim states. -/
theorem C8_full_course_rejects_readd :
    "s1" ∈ (Course.mk "c1" "Piano" "Ng" ["s1"] 1 "" "" "").enrolled_students ∧
    ((Course.mk "c1" "Piano" "Ng" ["s1"] 1 "" "" "").add_student "s1").1 = false := by
  decide

/-- C8 (amended): for a course that is strictly below capacity,
re-adding an already-enrolled student id succeeds silently (`true`) and
leaves the course, in particular its enrollment set, unchanged. -/
theorem C8_readd_idempotent_when_not_full (c : Course) (sid : String)
    (hmem : sid ∈ c.enrolled_students)
    (hroom : (c.enrolled_students.length : Int) < c.max_students) :
    (c.add_student sid).1 = true ∧ (c.add_student sid).2 = c := by
  have hlt : ¬ ((c.enrolled_students.length : Int) ≥ c.max_students) :=
    not_le.2 hroom
  refine ⟨by simp [Course.add_student, hlt], ?_⟩
  simp [Course.add_student, hlt, setAdd_of_mem hmem]

/-- Witness for amended C8: a course with one enrolled student and room
for two takes the re-add as a silent no-op success. -/
theorem C8_readd_idempotent_when_not_full_witness :
    ((Course.mk "c1" "Piano" "Ng" ["s1"] 2 "" "" "").add_student "s1").1 = true ∧
    ((Course.mk "c1" "Piano" "Ng" ["s1"] 2 "" "" "").add_student "s1").2 =
      Course.mk "c1" "Piano" "Ng" ["s1"] 2 "" "" "" :=
  C8_readd_idempotent_when_not_full
    (Course.mk "c1" "Piano" "Ng" ["s1"] 2 "" "" "") "s1" (by decide) (by decide)

/-- C9: with a fresh course id and non-empty required fields,
`add_course` fails with the invalid-input message and leaves the state
untouched whenever `max_students` does not convert to an integer
(`none`, the `ValueError` branch of `int(...)`) or converts to zero or
a negative number. -/
theorem C9_add_course_rejects_bad_max (es : EnrollmentSystem)
    (cid nm instr : String) (mx : Option Int)
    (hcid : cid.isEmpty = false) (hnm : nm.isEmpty = false)
    (hinstr : instr.isEmpty = false)
    (hfresh : lookupA es.courses cid = none)
    (hbad : mx = none ∨ ∃ m, mx = some m ∧ m ≤ 0) :
    (es.add_course cid nm instr mx).1.1 = false ∧
    ((es.add_course cid nm instr mx).1.2 = .maxNotNumber ∨
      (es.add_course cid nm instr mx).1.2 = .maxNotPositive) ∧
    (es.add_course cid nm instr mx).2 = es := by
  rcases hbad with rfl | ⟨m, rfl, hm⟩
  · simp [EnrollmentSystem.add_course, hcid, hnm, hinstr, hfresh]
  · simp [EnrollmentSystem.add_course, hcid, hnm, hinstr, hfresh, hm]

/-- Witness for C9: adding a course with `max_students = 0` to the empty
system fails and changes nothing. -/
theorem C9_add_course_rejects_bad_max_witness :
    (EnrollmentSystem.empty.add_course "c1" "Piano" "Ng" (some 0)).1.1 = false ∧
    ((EnrollmentSystem.empty.add_course "c1" "Piano" "Ng" (some 0)).1.2 =
        .maxNotNumber ∨
      (EnrollmentSystem.empty.add_course "c1" "Piano" "Ng" (some 0)).1.2 =
        .maxNotPositive) ∧
    (EnrollmentSystem.empty.add_course "c1" "Piano" "Ng" (some 0)).2 =
      EnrollmentSystem.empty :=
  C9_add_course_rejects_bad_max EnrollmentSystem.empty "c1" "Piano" "Ng" (some 0)
    (by decide) (by decide) (by decide) (by decide)
    (Or.inr ⟨0, rfl, le_refl 0⟩)

/-- C10: `has_schedule_conflict` is symmetric — the unscheduled guard,
the day-set intersection, the interval-overlap test and the fail-open
branch all treat the two courses interchangeably. -/
theorem C10_conflict_symmetric (a b : Course) :
    a.has_schedule_conflict b = b.has_schedule_conflict a := by
  have hguard : (a.days.isEmpty || a.time.isEmpty || b.days.isEmpty || b.time.isEmpty) =
      (b.days.isEmpty || b.time.isEmpty || a.days.isEmpty || a.time.isEmpty) := by
    cases a.days.isEmpty <;> cases a.time.isEmpty <;> cases b.days.isEmpty <;>
      cases b.time.isEmpty <;> rfl
  have hcd : a.has_common_days b.days = b.has_common_days a.days := by
    simp only [Course.has_common_days]
    rw [Bool.eq_iff_iff]
    simp only [List.any_eq_true, List.elem_iff]
    exact ⟨fun ⟨c, h1, h2⟩ => ⟨c, h2, h1⟩, fun ⟨c, h1, h2⟩ => ⟨c, h2, h1⟩⟩
  have hto : Course.times_overlap a.time b.time =
      Course.times_overlap b.time a.time := by
    cases h1 : Course.parse_time_range a.time with
    | none =>
        cases h2 : Course.parse_time_range b.time with
        | none => simp [Course.times_overlap, h1, h2]
        | some p2 => obtain ⟨x, y⟩ := p2; simp [Course.times_overlap, h1, h2]
    | some p1 =>
        obtain ⟨s1, e1⟩ := p1
        cases h2 : Course.parse_time_range b.time with
        | none => simp [Course.times_overlap, h1, h2]
        | some p2 =>
            obtain ⟨s2, e2⟩ := p2
            simp only [Course.times_overlap, h1, h2]
            rw [Bool.eq_iff_iff]
            simp only [Bool.and_eq_true, decide_eq_true_eq]
            exact ⟨fun ⟨u, v⟩ => ⟨v, u⟩, fun ⟨u, v⟩ => ⟨v, u⟩⟩
  unfold Course.has_schedule_conflict
  rw [hguard, hcd, hto]

/-- `drop_course` on a state where the student and course exist and the
enrollment is recorded: both sides are removed and the call succeeds. -/
theorem drop_course_eq (es : EnrollmentSystem) (sid cid : String)
    (s : Student) (c : Course)
    (hs : lookupA es.students sid = some s)
    (hc : lookupA es.courses cid = some c)
    (hreg : cid ∈ s.registered_courses) :
    es.drop_course sid cid =
      ((true, .droppedOk s.name c.name),
        ⟨alistSet es.students sid (s.remove_course cid),
         alistSet es.courses cid (c.remove_student sid)⟩) := by
  unfold EnrollmentSystem.drop_course
  rw [hs, hc]
  simp [hreg]

/-- C6: in every reachable state in which `enroll_student` succeeds,
immediately dropping the same pair succeeds and restores the student
record and the course record — in particular `registered_courses` and
`enrolled_students` — to exactly their pre-enrollment contents. -/
theorem C6_enroll_drop_round_trip (es : EnrollmentSystem) (h : Reach es)
    (sid cid : String) (s : Student) (c : Course)
    (hs : lookupA es.students sid = some s)
    (hc : lookupA es.courses cid = some c)
    (hok : (es.enroll_student sid cid).1.1 = true) :
    (((es.enroll_student sid cid).2.drop_course sid cid).1.1 = true) ∧
    lookupA ((es.enroll_student sid cid).2.drop_course sid cid).2.students sid =
      some s ∧
    lookupA ((es.enroll_student sid cid).2.drop_course sid cid).2.courses cid =
      some c := by
  have inv := reach_inv es h
  have hsid := inv.keyS sid s hs
  have hcid := inv.keyC cid c hc
  have hok2 := hok
  unfold EnrollmentSystem.enroll_student at hok2
  rw [hs, hc] at hok2
  by_cases hreg : cid ∈ s.registered_courses
  · simp [hreg] at hok2
  · cases hfull : c.is_full with
    | true => simp [hreg, hfull] at hok2
    | false =>
        cases hcf : findConflict es c s.registered_courses with
        | some ec => simp [hreg, hfull, hcf] at hok2
        | none =>
            have hmem_enr : sid ∉ c.enrolled_students := by
              intro hmem
              have hiff := inv.consistent sid s cid c hs hc
              rw [hcid, hsid] at hiff
              exact hreg (hiff.2 hmem)
            have hes2 : (es.enroll_student sid cid).2 =
                ⟨alistSet es.students sid (s.add_course cid),
                 alistSet es.courses cid
                   ⟨c.course_id, c.name, c.instructor,
                    setAdd c.enrolled_students sid, c.max_students,
                    c.days, c.time, c.location⟩⟩ := by
              unfold EnrollmentSystem.enroll_student
              rw [hs, hc]
              simp [hreg, hfull, hcf, Course.add_student_of_not_full c sid hfull]
            have l1 : lookupA (es.enroll_student sid cid).2.students sid =
                some (s.add_course cid) := by
              rw [hes2, lookupA_alistSet]
              simp
            have l2 : lookupA (es.enroll_student sid cid).2.courses cid =
                some ⟨c.course_id, c.name, c.instructor,
                  setAdd c.enrolled_students sid, c.max_students,
                  c.days, c.time, c.location⟩ := by
              rw [hes2, lookupA_alistSet]
              simp
            have hreg2 : cid ∈ (s.add_course cid).registered_courses := by
              simp [Student.add_course, mem_setAdd]
            have hdrop := drop_course_eq (es.enroll_student sid cid).2 sid cid
              (s.add_course cid)
              ⟨c.course_id, c.name, c.instructor, setAdd c.enrolled_students sid,
               c.max_students, c.days, c.time, c.location⟩ l1 l2 hreg2
            have hs_restore : (s.add_course cid).remove_course cid = s := by
              unfold Student.add_course Student.remove_course
              rw [setAdd_of_not_mem hreg, setDiscard_cons_self,
                setDiscard_of_not_mem hreg]
            have hc_restore :
                (Course.mk c.course_id c.name c.instructor
                  (setAdd c.enrolled_students sid) c.max_students
                  c.days c.time c.location).remove_student sid = c := by
              unfold Course.remove_student
              rw [setAdd_of_not_mem hmem_enr, setDiscard_cons_self,
                setDiscard_of_not_mem hmem_enr]
            rw [hdrop]
            refine ⟨rfl, ?_, ?_⟩
            · rw [hes2]
              simp only [lookupA_alistSet, if_pos rfl, hs_restore]
              simp [hs_restore]
            · rw [hes2]
              simp only [lookupA_alistSet, if_pos rfl, hc_restore]
              simp [hc_restore]

/-- Witness for C6: register a student, add a course, enroll, drop; the
original empty membership records come back. -/
theorem C6_enroll_drop_round_trip_witness :
    ((((EnrollmentSystem.empty.register_student "s1" "Alice").2.add_course
        "c1" "Calculus" "Ng" (some 3)).2.enroll_student "s1"
        "c1").2.drop_course "s1" "c1").1.1 = true ∧
    lookupA ((((EnrollmentSystem.empty.register_student "s1" "Alice").2.add_course
        "c1" "Calculus" "Ng" (some 3)).2.enroll_student "s1"
        "c1").2.drop_course "s1" "c1").2.students "s1" =
      some ⟨"s1", "Alice", []⟩ ∧
    lookupA ((((EnrollmentSystem.empty.register_student "s1" "Alice").2.add_course
        "c1" "Calculus" "Ng" (some 3)).2.enroll_student "s1"
        "c1").2.drop_course "s1" "c1").2.courses "c1" =
      some ⟨"c1", "Calculus", "Ng", [], 3, "", "", ""⟩ :=
  C6_enroll_drop_round_trip
    ((EnrollmentSystem.empty.register_student "s1" "Alice").2.add_course
      "c1" "Calculus" "Ng" (some 3)).2
    (Reach.course _ _ _ _ _ (Reach.register _ _ _ Reach.empty))
    "s1" "c1" ⟨"s1", "Alice", []⟩ ⟨"c1", "Calculus", "Ng", [], 3, "", "", ""⟩
    (by decide) (by decide) (by decide)

end BannerWeb
